import Mathlib

/-!
Shallow embedding of the momento-backend response cache and realtime
fan-out subsystems, together with proofs of their specified properties.

The definitions in the first half of this file are direct translations of
the JavaScript source:
* `src/utils/cache.js` — the in-memory keyed cache (`get`, `set`, `del`,
  `delPattern`, `clear`, `getStats`, `cleanup`, `getCacheKey`);
* `src/middleware/cache.js` — `cacheMiddleware` and `invalidateCache`;
* the `likePost` route handler and the socket registry of the server
  entry point.

A JavaScript `Map` is modelled as an association list kept in insertion
order (`Map.set` on an existing key updates the value in place, keeping
the key's original position; `Map.delete` removes the unique entry).
`Date.now()` is modelled by an explicit `now : Nat` parameter threaded
through every time-dependent operation.
-/

namespace Momento

/-- A stored post document, reduced to the fields the embedded handlers
inspect: its id, its creator's id and its list of liker ids. -/
structure Post where
  postId : String
  creatorId : String
  likes : List String
deriving DecidableEq, Repr

/-- Opaque JSON payloads moved through the cache and the responses.
`null` is the JavaScript `null`; `postVal` is the (injective) JSON
serialization of a post document. -/
inductive JsVal where
  | null
  | num (n : Int)
  | str (s : String)
  | postVal (p : Post)
deriving DecidableEq, Repr

/-! ### JavaScript `Map` as an insertion-ordered association list -/

/-- `Map.get`: the value of the first (in a real `Map`, unique) entry with
the given key. -/
def assocGet {α : Type} : List (String × α) → String → Option α
  | [], _ => none
  | (k', v) :: rest, k => if k' = k then some v else assocGet rest k

/-- `Map.set`: update the value in place if the key is present (keeping
its position in insertion order), otherwise append at the end. -/
def assocSet {α : Type} : List (String × α) → String → α → List (String × α)
  | [], k, v => [(k, v)]
  | (k', v') :: rest, k, v =>
    if k' = k then (k', v) :: rest else (k', v') :: assocSet rest k v

/-- `Map.delete`: remove the (unique) entry with the given key. -/
def assocDelete {α : Type} : List (String × α) → String → List (String × α)
  | [], _ => []
  | (k', v') :: rest, k => if k' = k then rest else (k', v') :: assocDelete rest k

/-- The keys of a real `Map` are pairwise distinct; this is the invariant
the association-list model inherits. -/
def NodupKeys {α : Type} (c : List (String × α)) : Prop :=
  (c.map Prod.fst).Nodup

instance {α : Type} (c : List (String × α)) : Decidable (NodupKeys c) := by
  unfold NodupKeys; infer_instance

/-! ### `src/utils/cache.js` -/

/-- Cache entry structure: `{ data, expiresAt, createdAt }`. -/
structure CacheEntry where
  data : JsVal
  expiresAt : Nat
  createdAt : Nat
deriving DecidableEq, Repr

abbrev Cache := List (String × CacheEntry)

/-- `DEFAULT_TTL = 5 * 60 * 1000` (five minutes in milliseconds). -/
def DEFAULT_TTL : Nat := 5 * 60 * 1000

/-- `MAX_CACHE_SIZE = 1000`. -/
def MAX_CACHE_SIZE : Nat := 1000

/-- `getCacheKey(prefix, id)` returns `` `${prefix}:${id}` ``. -/
def getCacheKey (ns id : String) : String := ns ++ ":" ++ id

/-- `get(key)`: absent key returns `null`; an entry with
`Date.now() > entry.expiresAt` is deleted and `null` returned; otherwise
`entry.data` is returned. The returned pair is (result, cache after the
lazy expiry deletion). -/
def get (c : Cache) (now : Nat) (key : String) : JsVal × Cache :=
  match assocGet c key with
  | none => (JsVal.null, c)
  | some entry =>
    if entry.expiresAt < now then (JsVal.null, assocDelete c key)
    else (entry.data, c)

/-- The eviction pass at the start of `set`: when `cache.size >=
MAX_CACHE_SIZE`, snapshot the entries, sort them by `createdAt`
ascending, and delete the first `Math.floor(MAX_CACHE_SIZE * 0.1)` keys
(`1000 * 0.1` rounds to exactly `100` in IEEE doubles). -/
def evictIfFull (c : Cache) : Cache :=
  if MAX_CACHE_SIZE ≤ c.length then
    let entries := c.mergeSort (fun a b => a.2.createdAt ≤ b.2.createdAt)
    let toRemove := MAX_CACHE_SIZE / 10
    (entries.take toRemove).foldl (fun acc p => assocDelete acc p.1) c
  else c

/-- `set(key, data, ttl)`: evict if at capacity, then store
`{ data, expiresAt: now + ttl, createdAt: now }` under `key`. -/
def set (c : Cache) (now : Nat) (key : String) (data : JsVal) (ttl : Nat) : Cache :=
  assocSet (evictIfFull c) key ⟨data, now + ttl, now⟩

/-- `del(key)` returns `cache.delete(key)`: whether the key was present,
and the cache without it. -/
def del (c : Cache) (key : String) : Bool × Cache :=
  ((assocGet c key).isSome, assocDelete c key)

/-- JavaScript `pattern.replace('*', '')` with the string pattern `'*'`:
remove the first `'*'` only. -/
def removeFirstStar : List Char → List Char
  | [] => []
  | ch :: cs => if ch = '*' then cs else ch :: removeFirstStar cs

/-- JavaScript `key.startsWith(pre)`. -/
def jsStartsWith (s pre : String) : Bool := pre.data.isPrefixOf s.data

/-- The loop of `delPattern`: walk the keys in insertion order, delete
every key starting with the computed prefix, and count the deletions. -/
def delPatternList (pre : String) : Cache → Nat × Cache
  | [] => (0, [])
  | (k, e) :: rest =>
    let r := delPatternList pre rest
    if jsStartsWith k pre then (r.1 + 1, r.2) else (r.1, (k, e) :: r.2)

/-- `delPattern(pattern)`: strip the first `'*'` from the pattern and
remove every entry whose key starts with the remaining prefix, returning
the number removed. -/
def delPattern (c : Cache) (pat : String) : Nat × Cache :=
  delPatternList (String.mk (removeFirstStar pat.data)) c

/-- `clear()`: empty the cache, returning the previous size. -/
def clear (c : Cache) : Nat × Cache := (c.length, [])

/-- `getStats()` result shape. -/
structure CacheStats where
  total : Nat
  active : Nat
  expired : Nat
  maxSize : Nat
deriving DecidableEq, Repr

/-- `getStats()`: classify every entry by expiry at call time. -/
def getStats (c : Cache) (now : Nat) : CacheStats :=
  { total := c.length
  , active := (c.filter (fun p => !(p.2.expiresAt < now : Bool))).length
  , expired := (c.filter (fun p => (p.2.expiresAt < now : Bool))).length
  , maxSize := MAX_CACHE_SIZE }

/-- `cleanup()`: delete every expired entry, returning how many were
removed. -/
def cleanup (c : Cache) (now : Nat) : Nat × Cache :=
  ((c.filter (fun p => (p.2.expiresAt < now : Bool))).length,
   c.filter (fun p => !(p.2.expiresAt < now : Bool)))

/-! ### `src/middleware/cache.js` -/

/-- The request data the embedded routes inspect: HTTP method, the
`:postId` route parameter and the query parameters. -/
structure Request where
  method : String
  postId : String
  query : List (String × String)
deriving DecidableEq, Repr

/-- An HTTP response: the status set by `res.status` (200 when never
set, as for a bare `res.json`) and the JSON body. -/
structure Response where
  status : Nat
  body : JsVal
deriving DecidableEq, Repr

/-- The default `skipCache` option: skip for `POST`, `PUT`, `DELETE`,
`PATCH`. -/
def defaultSkipCache (req : Request) : Bool :=
  ["POST", "PUT", "DELETE", "PATCH"].contains req.method

/-- The key generator installed on the `GET /api/posts/:postId` route:
`getCacheKey("post", req.params.postId)`. -/
def postKeyGen (req : Request) : String := getCacheKey "post" req.postId

/-- TTL installed on the `GET /api/posts/:postId` route (3 minutes). -/
def POST_ROUTE_TTL : Nat := 3 * 60 * 1000

/-- Outcome of one request through `cacheMiddleware`: the response sent,
the cache afterwards, and whether the wrapped handler ran. -/
structure MWResult where
  resp : Response
  cache : Cache
  handlerCalled : Bool
deriving DecidableEq, Repr

/-- `cacheMiddleware(options)` applied to one request.

* Non-`GET` or `skipCache(req)`: `next()` without touching the cache.
* Otherwise look up `keyGenerator(req)`; on `cachedData !== null` the
  cached body is sent with `res.json` (status 200, handler never runs);
  on a miss `res.json` is overridden so that whatever body the handler
  sends — whatever its status — is stored with `cache.set` and then
  delivered unchanged.

The handler is a pure function of the request, so the `try`/`catch`
around the lookup (which only fires when `keyGenerator` or `cache.get`
throws) is unreachable in the model. -/
def cacheMiddleware (ttl : Nat) (keyGen : Request → String) (skipCache : Request → Bool)
    (handler : Request → Response) (c : Cache) (now : Nat) (req : Request) : MWResult :=
  if req.method ≠ "GET" ∨ skipCache req = true then
    { resp := handler req, cache := c, handlerCalled := true }
  else
    let key := keyGen req
    let r := get c now key
    if r.1 ≠ JsVal.null then
      { resp := ⟨200, r.1⟩, cache := r.2, handlerCalled := false }
    else
      let hr := handler req
      { resp := hr, cache := set r.2 now key hr.body ttl, handlerCalled := true }

/-- `invalidateCache(prefix, id?)`: with an id, `cache.del` of the single
key `prefix:id`; without, `cache.delPattern(prefix + ":*")`. -/
def invalidateCache (c : Cache) (ns : String) (id : Option String) : Cache :=
  match id with
  | some i => (del c (getCacheKey ns i)).2
  | none => (delPattern c (ns ++ ":*")).2

/-! ### The `likePost` route handler (`PUT /api/posts/:postId/like`) -/

/-- Realtime emissions the `likePost` handler can produce. -/
inductive Emit where
  | newNotification (toUser : String)
  | notifCountUpdated (toUser : String)
  | postLiked (postId : String) (likes : List String)
deriving DecidableEq, Repr

/-- The environment one `likePost` execution sees: the session user, the
request body, the results of the three store calls, and whether the two
best-effort side effects throw when invoked. The store is an external
collaborator, so its answers are oracle fields. -/
structure LikeEnv where
  currentUser : Option String
  likesArray : Option (List String)
  findPost : Option Post
  updateResult : Option Post
  repopulated : Option Post
  notifFails : Bool
  cacheDelFails : Bool
deriving DecidableEq, Repr

/-- The observable outcome of a `likePost` call. -/
structure LikeOutcome where
  resp : Response
  cache : Cache
  emits : List Emit
deriving DecidableEq, Repr

/-- The body of the outer `try` of `likePost`, in source order: the four
early returns, the like normalization, the notification block (whose own
`try`/`catch` swallows a failure), the two `invalidateCache` calls (no
local `try`/`catch`: a throw escapes, carrying the emissions already
sent), the `post-liked` broadcast and the success `res.json`. -/
def likePostBody (env : LikeEnv) (postId : String) (c : Cache) :
    Except (String × List Emit) LikeOutcome :=
  match env.currentUser with
  | none => .ok ⟨⟨401, .str "You must be logged in"⟩, c, []⟩
  | some cu =>
    match env.likesArray with
    | none => .ok ⟨⟨400, .str "likesArray must be an array"⟩, c, []⟩
    | some arr =>
      match env.findPost with
      | none => .ok ⟨⟨404, .str "Post not found"⟩, c, []⟩
      | some existingPost =>
        let normalizedLikesArray := arr.filter (fun s => s ≠ "")
        let previousLikesArray := existingPost.likes.filter (fun s => s ≠ "")
        let isLiking :=
          !previousLikesArray.contains cu && normalizedLikesArray.contains cu
        match env.updateResult with
        | none => .ok ⟨⟨404, .str "Post not found"⟩, c, []⟩
        | some _updatedPost =>
          match env.repopulated with
          | none => .ok ⟨⟨404, .str "Post not found after update"⟩, c, []⟩
          | some populatedPost =>
            let notifEmits :=
              if isLiking && populatedPost.creatorId ≠ cu then
                if env.notifFails then []
                else [Emit.newNotification populatedPost.creatorId,
                      Emit.notifCountUpdated populatedPost.creatorId]
              else []
            if env.cacheDelFails then .error ("cache delete failed", notifEmits)
            else
              let c1 := invalidateCache c "post" (some postId)
              let c2 := invalidateCache c1 "posts" none
              .ok ⟨⟨200, .postVal populatedPost⟩, c2,
                   notifEmits ++ [Emit.postLiked postId normalizedLikesArray]⟩

/-- `likePost`: the outer `catch` turns any escaped error into
`res.status(500).json({ error: error.message })`; the cache is left as it
was and only the emissions already sent stand. -/
def likePost (env : LikeEnv) (postId : String) (c : Cache) : LikeOutcome :=
  match likePostBody env postId c with
  | .ok r => r
  | .error (msg, emitted) => ⟨⟨500, .str msg⟩, c, emitted⟩

/-! ### Realtime fan-out (server entry point) -/

/-- Server-side realtime state: the module-level `userSockets` map
(`userId -> socket.id`, a plain `Map`) and the transport's room
membership. Room bookkeeping (`socket.join`, room emission, leave-on-
disconnect) is the socket.io library, not repository code; it is
modelled from the spec: §6's realtime transport contract — `join(room)`
adds the handle to the room's set, emitting to a room delivers the event
to every handle currently in it. -/
structure FanoutState where
  userSockets : List (String × Nat)
  rooms : List (String × List Nat)
deriving DecidableEq, Repr

/-- The handles currently in a room (empty when the room is unknown). -/
def roomMembers (st : FanoutState) (room : String) : List Nat :=
  (assocGet st.rooms room).getD []

/-- Modelled from the spec: `socket.join(room)` of the realtime
transport (§6) — add the handle to the room's set (a no-op when it is
already a member). -/
def joinRoom (rooms : List (String × List Nat)) (room : String) (sid : Nat) :
    List (String × List Nat) :=
  match assocGet rooms room with
  | none => assocSet rooms room [sid]
  | some ms => if ms.contains sid then rooms else assocSet rooms room (ms ++ [sid])

/-- The `authenticate` socket event handler: when `userId` is truthy,
`socket.join("user-" + userId)` and `userSockets.set(userId, socket.id)`.
Note the map stores a single socket id per user. -/
def onAuthenticate (st : FanoutState) (userId : String) (sid : Nat) : FanoutState :=
  if userId ≠ "" then
    { rooms := joinRoom st.rooms ("user-" ++ userId) sid
    , userSockets := assocSet st.userSockets userId sid }
  else st

/-- The loop of the `disconnect` handler: delete the first `userSockets`
entry whose stored id is the disconnecting socket, then `break`. -/
def removeFirstByValue : List (String × Nat) → Nat → List (String × Nat)
  | [], _ => []
  | (u, s) :: rest, sid => if s = sid then rest else (u, s) :: removeFirstByValue rest sid

/-- The `disconnect` socket event handler, together with the transport's
own removal of the closed handle from every room (modelled from the
spec: §6). -/
def onDisconnect (st : FanoutState) (sid : Nat) : FanoutState :=
  { rooms := st.rooms.map (fun p => (p.1, p.2.filter (fun s => s ≠ sid)))
  , userSockets := removeFirstByValue st.userSockets sid }

/-- One delivered event: which handle received which event and payload. -/
structure Delivery where
  sid : Nat
  event : String
  payload : JsVal
deriving DecidableEq, Repr

/-- Modelled from the spec: `io.to("user-" + userId).emit(event, payload)`
(§6) — deliver the event once to every handle currently in the user's
room; an empty or unknown room delivers nothing. -/
def emitToUser (st : FanoutState) (userId : String) (event : String) (payload : JsVal) :
    List Delivery :=
  (roomMembers st ("user-" ++ userId)).map (fun sid => ⟨sid, event, payload⟩)

/-! ## Helper lemmas about the `Map` model -/

theorem assocGet_assocSet_self {α : Type} (c : List (String × α)) (k : String) (v : α) :
    assocGet (assocSet c k v) k = some v := by
  induction c with
  | nil => simp [assocSet, assocGet]
  | cons p rest ih =>
    obtain ⟨k', v'⟩ := p
    by_cases h : k' = k <;> simp [assocSet, assocGet, h, ih]

theorem assocGet_eq_none_of_not_mem {α : Type} (c : List (String × α)) (k : String)
    (h : k ∉ c.map Prod.fst) : assocGet c k = none := by
  induction c with
  | nil => rfl
  | cons p rest ih =>
    simp only [List.map_cons, List.mem_cons, not_or] at h
    have h1 : ¬p.1 = k := fun hh => h.1 hh.symm
    simp [assocGet, h1, ih h.2]

theorem mem_of_assocGet_eq_some {α : Type} {c : List (String × α)} {k : String} {v : α}
    (h : assocGet c k = some v) : k ∈ c.map Prod.fst := by
  induction c with
  | nil => simp [assocGet] at h
  | cons p rest ih =>
    by_cases hk : p.1 = k
    · simp [hk]
    · obtain ⟨k', v'⟩ := p
      simp only [assocGet, if_neg hk] at h
      simp [ih h]

theorem assocGet_assocDelete_self {α : Type} (c : List (String × α)) (k : String)
    (h : NodupKeys c) : assocGet (assocDelete c k) k = none := by
  induction c with
  | nil => rfl
  | cons p rest ih =>
    obtain ⟨k', v'⟩ := p
    simp only [NodupKeys, List.map_cons, List.nodup_cons] at h
    by_cases hk : k' = k
    · subst hk
      simpa [assocDelete] using assocGet_eq_none_of_not_mem rest k' h.1
    · simp [assocDelete, hk, assocGet, ih h.2]

theorem assocDelete_eq_filter {α : Type} (c : List (String × α)) (k : String)
    (h : NodupKeys c) : assocDelete c k = c.filter (fun p => p.1 ≠ k) := by
  induction c with
  | nil => rfl
  | cons p rest ih =>
    obtain ⟨k', v'⟩ := p
    simp only [NodupKeys, List.map_cons, List.nodup_cons] at h
    by_cases hk : k' = k
    · subst hk
      have hfix : rest.filter (fun p => !decide (p.1 = k')) = rest := by
        apply List.filter_eq_self.mpr
        intro p hp
        have hmem : p.1 ∈ rest.map Prod.fst := List.mem_map_of_mem Prod.fst hp
        simp only [Bool.not_eq_true', decide_eq_false_iff_not]
        exact fun hc => h.1 (hc ▸ hmem)
      simp [assocDelete, hfix]
    · simp [assocDelete, hk, ih h.2]

theorem nodupKeys_filter {α : Type} (c : List (String × α)) (f : String × α → Bool)
    (h : NodupKeys c) : NodupKeys (c.filter f) :=
  ((List.filter_sublist c).map Prod.fst).nodup h

theorem assocSet_length_le {α : Type} (c : List (String × α)) (k : String) (v : α) :
    (assocSet c k v).length ≤ c.length + 1 := by
  induction c with
  | nil => simp [assocSet]
  | cons p rest ih =>
    obtain ⟨k', v'⟩ := p
    by_cases h : k' = k
    · simp [assocSet, h]
    · simp only [assocSet, if_neg h, List.length_cons]
      omega

theorem assocGet_eq_none_iff {α : Type} (c : List (String × α)) (k : String) :
    assocGet c k = none ↔ k ∉ c.map Prod.fst := by
  constructor
  · intro h hmem
    induction c with
    | nil => simp at hmem
    | cons p rest ih =>
      obtain ⟨k', v'⟩ := p
      by_cases hk : k' = k
      · simp [assocGet, hk] at h
      · simp only [assocGet, if_neg hk] at h
        simp only [List.map_cons, List.mem_cons] at hmem
        rcases hmem with h1 | h2
        · exact hk h1.symm
        · exact ih h h2
  · exact assocGet_eq_none_of_not_mem c k

/-! ## C1 — TTL semantics of `get` after `set` -/

/-- C1 counterexample: with `set("a", "x", 5)` at time 0, a `get("a")` at
time 5 — exactly `ttl` milliseconds later, so `t` *has* elapsed and no
delete has removed the key — still returns the cached value, not the
absent sentinel `null` the claim requires, because the code treats an
entry as expired only when `Date.now() > expiresAt` (strictly). -/
theorem get_at_exact_ttl_not_absent :
    (get (set [] 0 "a" (JsVal.str "x") 5) 5 "a").1 ≠ JsVal.null := by decide

/-- C1 (amended): `set(k, v, t)` stores the entry
`{data := v, expiresAt := t0 + t, createdAt := t0}` under `k`, and for
any cache still holding that entry under `k` (i.e. no
delete/deleteNamespace/clear/eviction/overwrite has removed it):
`get(k)` returns `v` as long as **at most** `t` milliseconds have
elapsed, and once **strictly more than** `t` milliseconds have elapsed
`get(k)` returns `null` and that very call removes the expired entry
from the store. -/
theorem get_after_set_ttl (c : Cache) (t0 ttl : Nat) (k : String) (v : JsVal) :
    assocGet (set c t0 k v ttl) k = some ⟨v, t0 + ttl, t0⟩
    ∧ (∀ (c' : Cache) (now : Nat), NodupKeys c' →
        assocGet c' k = some ⟨v, t0 + ttl, t0⟩ →
        ((now ≤ t0 + ttl → get c' now k = (v, c'))
         ∧ (t0 + ttl < now →
             (get c' now k).1 = JsVal.null ∧ assocGet (get c' now k).2 k = none))) := by
  refine ⟨assocGet_assocSet_self _ _ _, ?_⟩
  intro c' now hnd hk
  constructor
  · intro hle
    simp [get, hk, Nat.not_lt.mpr hle]
  · intro hlt
    simp [get, hk, hlt, assocGet_assocDelete_self c' k hnd]

/-- C1 witness: the amended theorem applied at `k = "a"`, `v = "x"`,
`t = 5`, `t0 = 0`: the freshly set cache satisfies the hypotheses, the
value is still returned at `now = 5`, and at `now = 6` the result is
`null` with the entry gone. -/
theorem get_after_set_ttl_witness :
    NodupKeys (set ([] : Cache) 0 "a" (JsVal.str "x") 5)
    ∧ assocGet (set ([] : Cache) 0 "a" (JsVal.str "x") 5) "a"
        = some ⟨JsVal.str "x", 5, 0⟩
    ∧ get (set ([] : Cache) 0 "a" (JsVal.str "x") 5) 5 "a"
        = (JsVal.str "x", set ([] : Cache) 0 "a" (JsVal.str "x") 5)
    ∧ (get (set ([] : Cache) 0 "a" (JsVal.str "x") 5) 6 "a").1 = JsVal.null :=
  ⟨by decide,
   (get_after_set_ttl [] 0 5 "a" (JsVal.str "x")).1,
   ((get_after_set_ttl [] 0 5 "a" (JsVal.str "x")).2 _ 5 (by decide) (by decide)).1
     (by decide),
   (((get_after_set_ttl [] 0 5 "a" (JsVal.str "x")).2 _ 6 (by decide) (by decide)).2
     (by decide)).1⟩

/-! ## C3 — namespace invalidation removes exactly the `ns:` keys -/

theorem removeFirstStar_append (l r : List Char) (h : '*' ∉ l) :
    removeFirstStar (l ++ '*' :: r) = l ++ r := by
  induction l with
  | nil => simp [removeFirstStar]
  | cons a as ih =>
    simp only [List.mem_cons, not_or] at h
    have ha : ¬a = '*' := fun hh => h.1 hh.symm
    simp [removeFirstStar, ha, ih h.2]

theorem delPatternList_spec (pre : String) (c : Cache) :
    (delPatternList pre c).2 = c.filter (fun p => !jsStartsWith p.1 pre)
    ∧ (delPatternList pre c).1 = (c.filter (fun p => jsStartsWith p.1 pre)).length := by
  induction c with
  | nil => simp [delPatternList]
  | cons p rest ih =>
    obtain ⟨k, e⟩ := p
    by_cases h : jsStartsWith k pre
    · simp [delPatternList, h, ih.1, ih.2]
    · simp [delPatternList, h, ih.1, ih.2]

theorem data_append_colon_star (n : String) : (n ++ ":*").data = n.data ++ [':', '*'] := by
  cases n
  rfl

theorem mk_data_append_colon (n : String) : String.mk (n.data ++ [':']) = n ++ ":" := by
  cases n
  rfl

/-- C3: `deleteNamespace(n)` — `invalidateCache(n)` without an id, i.e.
`delPattern(n ++ ":*")` — removes exactly the entries whose key starts
with `n ++ ":"`, returns their count, and leaves every other entry (and
their order and values) unchanged; the hypothesis records that a
namespace tag contains no `'*'`, since `replace('*','')` strips the
first star of the pattern. -/
theorem deleteNamespace_spec (c : Cache) (n : String) (hs : '*' ∉ n.data) :
    (delPattern c (n ++ ":*")).2 = c.filter (fun p => !jsStartsWith p.1 (n ++ ":"))
    ∧ (delPattern c (n ++ ":*")).1
        = (c.filter (fun p => jsStartsWith p.1 (n ++ ":"))).length := by
  have hpre : String.mk (removeFirstStar (n ++ ":*").data) = n ++ ":" := by
    rw [data_append_colon_star]
    have : n.data ++ [':', '*'] = (n.data ++ [':']) ++ '*' :: [] := by simp
    rw [this, removeFirstStar_append _ _ (by simpa using hs)]
    simpa using mk_data_append_colon n
  unfold delPattern
  rw [hpre]
  exact delPatternList_spec (n ++ ":") c

/-- C3 witness: the claim's own scenario. After `set("post:1", v1)` and
`set("posts:list", v2)`, `deleteNamespace("post")` removes `"post:1"`,
reports one removal, and leaves `"posts:list"` present with `v2`. -/
theorem deleteNamespace_spec_witness :
    ('*' ∉ "post".data)
    ∧ (delPattern [("post:1", ⟨JsVal.str "v1", 300000, 0⟩),
                   ("posts:list", ⟨JsVal.str "v2", 300000, 0⟩)] ("post" ++ ":*")).2
        = [("post:1", ⟨JsVal.str "v1", 300000, 0⟩),
           ("posts:list", ⟨JsVal.str "v2", 300000, 0⟩)].filter
            (fun p => !jsStartsWith p.1 ("post" ++ ":"))
    ∧ (delPattern [("post:1", ⟨JsVal.str "v1", 300000, 0⟩),
                   ("posts:list", ⟨JsVal.str "v2", 300000, 0⟩)] ("post" ++ ":*")).2
        = [("posts:list", ⟨JsVal.str "v2", 300000, 0⟩)]
    ∧ (delPattern [("post:1", ⟨JsVal.str "v1", 300000, 0⟩),
                   ("posts:list", ⟨JsVal.str "v2", 300000, 0⟩)] ("post" ++ ":*")).1 = 1 :=
  ⟨by decide,
   (deleteNamespace_spec _ "post" (by decide)).1,
   by decide, by decide⟩

/-! ## C10 — a cached `null` payload is indistinguishable from absence -/

/-- C10: after `set(k, null, ttl)` for the post key, `get(k)` returns
`null` at every later time, exactly as for a never-stored key (the empty
cache); consequently the interceptor's `cachedData !== null` hit test
fails and the wrapped handler is invoked again on every subsequent
request, its response delivered as on any miss. -/
theorem cached_null_is_miss (c : Cache) (t0 ttl now now' : Nat) (pid : String)
    (q : List (String × String)) (handler : Request → Response) :
    (get (set c t0 (getCacheKey "post" pid) JsVal.null ttl) now'
        (getCacheKey "post" pid)).1 = JsVal.null
    ∧ (get ([] : Cache) now' (getCacheKey "post" pid)).1 = JsVal.null
    ∧ ((cacheMiddleware ttl postKeyGen defaultSkipCache handler
          (set c t0 (getCacheKey "post" pid) JsVal.null ttl) now
          ⟨"GET", pid, q⟩).handlerCalled = true
       ∧ (cacheMiddleware ttl postKeyGen defaultSkipCache handler
            (set c t0 (getCacheKey "post" pid) JsVal.null ttl) now
            ⟨"GET", pid, q⟩).resp = handler ⟨"GET", pid, q⟩) := by
  have hget : ∀ m : Nat,
      (get (set c t0 (getCacheKey "post" pid) JsVal.null ttl) m
        (getCacheKey "post" pid)).1 = JsVal.null := by
    intro m
    have hk := assocGet_assocSet_self (evictIfFull c) (getCacheKey "post" pid)
      (⟨JsVal.null, t0 + ttl, t0⟩ : CacheEntry)
    by_cases hexp : t0 + ttl < m
    · simp [get, set, hk, hexp]
    · simp [get, set, hk, hexp]
  refine ⟨hget now', by simp [get, assocGet], ?_, ?_⟩
  · simp [cacheMiddleware, defaultSkipCache, postKeyGen, hget now]
  · simp [cacheMiddleware, defaultSkipCache, postKeyGen, hget now]

/-! ## C4 / C5 — interceptor transparency and what gets cached

Concrete scenario shared by the two counterexamples: the
`GET /api/posts/:postId` route configuration (prefix `"post"`, explicit
key generator, 3-minute TTL) wrapped around `getPostById` when the store
has no such post, so the handler responds `404` with the standard error
body — exactly the situation of `src/unnamed/part_009`'s `getPostById`. -/

def notFoundBody : JsVal := JsVal.str "Post not found"

def notFoundHandler : Request → Response := fun _ => ⟨404, notFoundBody⟩

def reqPost1 : Request := ⟨"GET", "1", []⟩

def missRun : MWResult :=
  cacheMiddleware POST_ROUTE_TTL postKeyGen defaultSkipCache notFoundHandler [] 0 reqPost1

def hitRun : MWResult :=
  cacheMiddleware POST_ROUTE_TTL postKeyGen defaultSkipCache notFoundHandler
    missRun.cache 1 reqPost1

/-- C4 counterexample: a deterministic wrapped handler that responds
`404 Post not found`. The first request is a miss and sends status 404;
the body is stored; the second request is a hit and sends the stored
body with status **200** (`res.json` with no `res.status` call), so the
hit response does not equal the captured miss response. -/
theorem hit_response_differs_in_status :
    hitRun.resp ≠ missRun.resp
    ∧ missRun.resp.status = 404 ∧ hitRun.resp.status = 200
    ∧ hitRun.resp.body = missRun.resp.body ∧ hitRun.handlerCalled = false := by
  decide

/-- C4 (amended): on a hit following a miss of the same key by the same
deterministic handler, the **body** sent equals, byte-for-byte, the body
captured and stored on the miss, and the wrapped handler is not invoked;
the status of a hit, however, is always 200, so the full response
matches the miss only when the handler had responded with status 200.
(The hypotheses record that the route is cacheable, the first lookup
missed, the captured body is not `null`, and the entry is unexpired.) -/
theorem interceptor_hit_transparency (ttl now now' : Nat) (keyGen : Request → String)
    (handler : Request → Response) (c : Cache) (req : Request)
    (hm : req.method = "GET") (hsk : defaultSkipCache req = false)
    (hmiss : (get c now (keyGen req)).1 = JsVal.null)
    (hbody : (handler req).body ≠ JsVal.null)
    (hfresh : now' ≤ now + ttl) :
    (cacheMiddleware ttl keyGen defaultSkipCache handler c now req).handlerCalled = true
    ∧ (cacheMiddleware ttl keyGen defaultSkipCache handler c now req).resp = handler req
    ∧ (cacheMiddleware ttl keyGen defaultSkipCache handler
        (cacheMiddleware ttl keyGen defaultSkipCache handler c now req).cache
        now' req).handlerCalled = false
    ∧ (cacheMiddleware ttl keyGen defaultSkipCache handler
        (cacheMiddleware ttl keyGen defaultSkipCache handler c now req).cache
        now' req).resp.body = (handler req).body
    ∧ (cacheMiddleware ttl keyGen defaultSkipCache handler
        (cacheMiddleware ttl keyGen defaultSkipCache handler c now req).cache
        now' req).resp.status = 200 := by
  have hr1 : cacheMiddleware ttl keyGen defaultSkipCache handler c now req
      = ⟨handler req, set (get c now (keyGen req)).2 now (keyGen req) (handler req).body ttl,
         true⟩ := by
    simp [cacheMiddleware, hm, hsk, hmiss]
  have hk : assocGet (set (get c now (keyGen req)).2 now (keyGen req) (handler req).body ttl)
      (keyGen req) = some ⟨(handler req).body, now + ttl, now⟩ :=
    assocGet_assocSet_self _ _ _
  have hget2 : get (set (get c now (keyGen req)).2 now (keyGen req) (handler req).body ttl)
      now' (keyGen req)
      = ((handler req).body,
         set (get c now (keyGen req)).2 now (keyGen req) (handler req).body ttl) := by
    generalize hC : set (get c now (keyGen req)).2 now (keyGen req) (handler req).body ttl
      = cNew at hk ⊢
    simp [get, hk, Nat.not_lt.mpr hfresh]
  have hr2 : cacheMiddleware ttl keyGen defaultSkipCache handler
      (set (get c now (keyGen req)).2 now (keyGen req) (handler req).body ttl) now' req
      = ⟨⟨200, (handler req).body⟩,
         set (get c now (keyGen req)).2 now (keyGen req) (handler req).body ttl, false⟩ := by
    simp [cacheMiddleware, hm, hsk, hget2, hbody]
  rw [hr1]
  simp [hr2]

/-- C4 witness: the amended theorem at a handler answering
`200 "ok"` on the post route, starting from the empty cache. -/
theorem interceptor_hit_transparency_witness :
    (reqPost1.method = "GET"
      ∧ defaultSkipCache reqPost1 = false
      ∧ (get ([] : Cache) 0 (postKeyGen reqPost1)).1 = JsVal.null
      ∧ ((fun _ => (⟨200, JsVal.str "ok"⟩ : Response)) reqPost1).body ≠ JsVal.null
      ∧ 1 ≤ 0 + POST_ROUTE_TTL)
    ∧ (cacheMiddleware POST_ROUTE_TTL postKeyGen defaultSkipCache
        (fun _ => ⟨200, JsVal.str "ok"⟩)
        (cacheMiddleware POST_ROUTE_TTL postKeyGen defaultSkipCache
          (fun _ => ⟨200, JsVal.str "ok"⟩) [] 0 reqPost1).cache
        1 reqPost1).handlerCalled = false :=
  ⟨⟨by decide, by decide, by decide, by decide, by decide⟩,
   (interceptor_hit_transparency POST_ROUTE_TTL 0 1 postKeyGen
      (fun _ => ⟨200, JsVal.str "ok"⟩) [] reqPost1
      (by decide) (by decide) (by decide) (by decide) (by decide)).2.2.1⟩

/-- C5 counterexample: after the miss of the concrete 404 scenario, the
cache holds the handler's **error body** under the post key — the
interceptor stored an error response. -/
theorem error_response_is_cached :
    assocGet missRun.cache "post:1" = some ⟨notFoundBody, 180000, 0⟩
    ∧ missRun.resp.status = 404 := by
  decide

/-- C5 (amended): on the cacheable path, whatever response the wrapped
handler produces is delivered to the caller unchanged (status and body,
so handler-produced error responses are not suppressed or altered), but
its body is **always** stored in the cache — the interceptor caches
every payload passed through `res.json`, error responses such as 404 or
500 bodies included; only a `null` body fails the later hit test. -/
theorem interceptor_caches_every_body (ttl now : Nat) (keyGen : Request → String)
    (handler : Request → Response) (c : Cache) (req : Request)
    (hm : req.method = "GET") (hsk : defaultSkipCache req = false)
    (hmiss : (get c now (keyGen req)).1 = JsVal.null) :
    (cacheMiddleware ttl keyGen defaultSkipCache handler c now req).resp = handler req
    ∧ assocGet (cacheMiddleware ttl keyGen defaultSkipCache handler c now req).cache
        (keyGen req) = some ⟨(handler req).body, now + ttl, now⟩ := by
  have hr1 : cacheMiddleware ttl keyGen defaultSkipCache handler c now req
      = ⟨handler req, set (get c now (keyGen req)).2 now (keyGen req) (handler req).body ttl,
         true⟩ := by
    simp [cacheMiddleware, hm, hsk, hmiss]
  rw [hr1]
  exact ⟨rfl, assocGet_assocSet_self _ _ _⟩

/-- C5 witness: the amended theorem at the concrete 404 scenario — the
404 response is delivered unchanged and its body stored. -/
theorem interceptor_caches_every_body_witness :
    (reqPost1.method = "GET"
      ∧ defaultSkipCache reqPost1 = false
      ∧ (get ([] : Cache) 0 (postKeyGen reqPost1)).1 = JsVal.null)
    ∧ assocGet (cacheMiddleware POST_ROUTE_TTL postKeyGen defaultSkipCache
        notFoundHandler [] 0 reqPost1).cache (postKeyGen reqPost1)
        = some ⟨(notFoundHandler reqPost1).body, 0 + POST_ROUTE_TTL, 0⟩ :=
  ⟨⟨by decide, by decide, by decide⟩,
   (interceptor_caches_every_body POST_ROUTE_TTL 0 postKeyGen notFoundHandler [] reqPost1
      (by decide) (by decide) (by decide)).2⟩

/-! ## C6 / C7 — `likePost`: invalidation failure handling and coverage -/

theorem assocGet_filter_none {α : Type} (d : List (String × α)) (f : String × α → Bool)
    (k : String) (h : assocGet d k = none) : assocGet (d.filter f) k = none := by
  rw [assocGet_eq_none_iff] at h ⊢
  intro hmem
  exact h (((List.filter_sublist d).map Prod.fst).subset hmem)

/-- A `likePost` environment on the success path: logged-in user `u2`
likes `p1` (owned by `u1`), all three store calls succeed, no side
effect throws. -/
def envLikeOk : LikeEnv :=
  ⟨some "u2", some ["u1", "u2"], some ⟨"p1", "u1", ["u1"]⟩,
   some ⟨"p1", "u1", ["u1", "u2"]⟩, some ⟨"p1", "u1", ["u1", "u2"]⟩, false, false⟩

/-- The same environment, except that the cache's internal delete throws
when `invalidateCache` runs. -/
def envLikeFail : LikeEnv := { envLikeOk with cacheDelFails := true }

/-- C6 counterexample: with the store write already succeeded, a throw
inside the cache invalidation is **not** swallowed at the invalidation
call site — it is caught by the handler's outer `try`/`catch`, which
responds with a 500 error caused by the invalidation instead of the
normal success response the same environment produces when invalidation
does not throw. -/
theorem invalidation_failure_not_swallowed :
    (likePost envLikeFail "p1" []).resp.status = 500
    ∧ (likePost envLikeOk "p1" []).resp
        = ⟨200, JsVal.postVal ⟨"p1", "u1", ["u1", "u2"]⟩⟩
    ∧ (likePost envLikeFail "p1" []).resp ≠ (likePost envLikeOk "p1" []).resp := by
  decide

/-- C6 (amended): when the store write has succeeded and the subsequent
cache invalidation raises, the error is caught only by the handler's
outer `try`/`catch` (so the process does not crash and the cache is
left untouched), but the handler responds `500` with the invalidation
error — the HTTP caller receives an error caused by the invalidation,
not the normal success response. -/
theorem invalidation_failure_yields_500 (env : LikeEnv) (postId : String) (c : Cache)
    (cu : String) (arr : List String) (p0 p1 p2 : Post)
    (hcu : env.currentUser = some cu) (harr : env.likesArray = some arr)
    (hfind : env.findPost = some p0) (hupd : env.updateResult = some p1)
    (hpop : env.repopulated = some p2) (hfail : env.cacheDelFails = true) :
    (likePost env postId c).resp = ⟨500, JsVal.str "cache delete failed"⟩
    ∧ (likePost env postId c).cache = c
    ∧ (likePost env postId c).resp ≠ ⟨200, JsVal.postVal p2⟩ := by
  simp [likePost, likePostBody, hcu, harr, hfind, hupd, hpop, hfail]

/-- C6 witness: the amended theorem at the concrete failing
environment. -/
theorem invalidation_failure_yields_500_witness :
    (envLikeFail.currentUser = some "u2"
      ∧ envLikeFail.likesArray = some ["u1", "u2"]
      ∧ envLikeFail.findPost = some ⟨"p1", "u1", ["u1"]⟩
      ∧ envLikeFail.updateResult = some ⟨"p1", "u1", ["u1", "u2"]⟩
      ∧ envLikeFail.repopulated = some ⟨"p1", "u1", ["u1", "u2"]⟩
      ∧ envLikeFail.cacheDelFails = true)
    ∧ (likePost envLikeFail "p1" []).resp = ⟨500, JsVal.str "cache delete failed"⟩ :=
  ⟨⟨by decide, by decide, by decide, by decide, by decide, by decide⟩,
   (invalidation_failure_yields_500 envLikeFail "p1" [] "u2" ["u1", "u2"]
      ⟨"p1", "u1", ["u1"]⟩ ⟨"p1", "u1", ["u1", "u2"]⟩ ⟨"p1", "u1", ["u1", "u2"]⟩
      (by decide) (by decide) (by decide) (by decide) (by decide) (by decide)).1⟩

/-- C7: on the success path (store write succeeded, invalidation does
not throw), `likePost` responds 200 with the repopulated post and its
two `invalidateCache` calls leave a cache in which the single-post key
`post:<pid>` is absent and no key of the `posts` namespace survives;
consequently an immediately following `GET /api/posts/:postId` through
the cache middleware is a miss: the wrapped handler runs and its fresh
response is delivered, not a previously cached value. -/
theorem likePost_invalidation_freshens (env : LikeEnv) (pid : String) (c : Cache)
    (now' ttl : Nat) (q : List (String × String)) (freshHandler : Request → Response)
    (cu : String) (arr : List String) (p0 p1 p2 : Post)
    (hcu : env.currentUser = some cu) (harr : env.likesArray = some arr)
    (hfind : env.findPost = some p0) (hupd : env.updateResult = some p1)
    (hpop : env.repopulated = some p2) (hok : env.cacheDelFails = false)
    (hnd : NodupKeys c) :
    (likePost env pid c).resp = ⟨200, JsVal.postVal p2⟩
    ∧ assocGet (likePost env pid c).cache (getCacheKey "post" pid) = none
    ∧ (∀ p ∈ (likePost env pid c).cache, jsStartsWith p.1 ("posts" ++ ":") = false)
    ∧ (cacheMiddleware ttl postKeyGen defaultSkipCache freshHandler
        (likePost env pid c).cache now' ⟨"GET", pid, q⟩).handlerCalled = true
    ∧ (cacheMiddleware ttl postKeyGen defaultSkipCache freshHandler
        (likePost env pid c).cache now' ⟨"GET", pid, q⟩).resp
        = freshHandler ⟨"GET", pid, q⟩ := by
  have hresp : (likePost env pid c).resp = ⟨200, JsVal.postVal p2⟩ := by
    simp [likePost, likePostBody, hcu, harr, hfind, hupd, hpop, hok]
  have hcache : (likePost env pid c).cache
      = invalidateCache (invalidateCache c "post" (some pid)) "posts" none := by
    simp [likePost, likePostBody, hcu, harr, hfind, hupd, hpop, hok]
  have hdel1 : assocGet (invalidateCache c "post" (some pid)) (getCacheKey "post" pid)
      = none := by
    simpa [invalidateCache, del] using assocGet_assocDelete_self c (getCacheKey "post" pid) hnd
  have hfilterform : invalidateCache (invalidateCache c "post" (some pid)) "posts" none
      = (invalidateCache c "post" (some pid)).filter
          (fun p => !jsStartsWith p.1 ("posts" ++ ":")) := by
    simpa [invalidateCache] using
      (deleteNamespace_spec (invalidateCache c "post" (some pid)) "posts" (by decide)).1
  have hkey : assocGet (likePost env pid c).cache (getCacheKey "post" pid) = none := by
    rw [hcache, hfilterform]
    exact assocGet_filter_none _ _ _ hdel1
  have hmiss : (get (likePost env pid c).cache now' (getCacheKey "post" pid)).1
      = JsVal.null := by
    simp [get, hkey]
  refine ⟨hresp, hkey, ?_, ?_, ?_⟩
  · intro p hp
    rw [hcache, hfilterform] at hp
    have := List.of_mem_filter hp
    simpa using this
  · simp [cacheMiddleware, defaultSkipCache, postKeyGen, hmiss]
  · simp [cacheMiddleware, defaultSkipCache, postKeyGen, hmiss]

/-- C7 witness: the success environment run against a cache holding the
previously cached post, a `posts` list page and an unrelated `user`
entry; the post key is gone and the following GET re-runs the handler. -/
theorem likePost_invalidation_freshens_witness :
    (envLikeOk.currentUser = some "u2"
      ∧ envLikeOk.cacheDelFails = false
      ∧ NodupKeys [("post:p1", (⟨JsVal.str "old", 300000, 0⟩ : CacheEntry)),
                   ("posts:list:x", ⟨JsVal.str "l", 300000, 0⟩),
                   ("user:7", ⟨JsVal.str "u", 300000, 0⟩)])
    ∧ assocGet (likePost envLikeOk "p1"
        [("post:p1", ⟨JsVal.str "old", 300000, 0⟩),
         ("posts:list:x", ⟨JsVal.str "l", 300000, 0⟩),
         ("user:7", ⟨JsVal.str "u", 300000, 0⟩)]).cache (getCacheKey "post" "p1") = none
    ∧ (cacheMiddleware POST_ROUTE_TTL postKeyGen defaultSkipCache notFoundHandler
        (likePost envLikeOk "p1"
          [("post:p1", ⟨JsVal.str "old", 300000, 0⟩),
           ("posts:list:x", ⟨JsVal.str "l", 300000, 0⟩),
           ("user:7", ⟨JsVal.str "u", 300000, 0⟩)]).cache
        1 ⟨"GET", "p1", []⟩).handlerCalled = true :=
  ⟨⟨by decide, by decide, by decide⟩,
   (likePost_invalidation_freshens envLikeOk "p1"
      [("post:p1", ⟨JsVal.str "old", 300000, 0⟩),
       ("posts:list:x", ⟨JsVal.str "l", 300000, 0⟩),
       ("user:7", ⟨JsVal.str "u", 300000, 0⟩)] 1 POST_ROUTE_TTL []
      notFoundHandler "u2" ["u1", "u2"] ⟨"p1", "u1", ["u1"]⟩
      ⟨"p1", "u1", ["u1", "u2"]⟩ ⟨"p1", "u1", ["u1", "u2"]⟩
      (by decide) (by decide) (by decide) (by decide) (by decide) (by decide)
      (by decide)).2.1,
   (likePost_invalidation_freshens envLikeOk "p1"
      [("post:p1", ⟨JsVal.str "old", 300000, 0⟩),
       ("posts:list:x", ⟨JsVal.str "l", 300000, 0⟩),
       ("user:7", ⟨JsVal.str "u", 300000, 0⟩)] 1 POST_ROUTE_TTL []
      notFoundHandler "u2" ["u1", "u2"] ⟨"p1", "u1", ["u1"]⟩
      ⟨"p1", "u1", ["u1", "u2"]⟩ ⟨"p1", "u1", ["u1", "u2"]⟩
      (by decide) (by decide) (by decide) (by decide) (by decide) (by decide)
      (by decide)).2.2.2.1⟩

/-! ## C8 / C9 — realtime fan-out delivery and the connection registry -/

/-- Fan-out state after user `U` authenticates two connections (socket
ids 1 and 2) on a fresh server. -/
def stTwoConn : FanoutState := onAuthenticate (onAuthenticate ⟨[], []⟩ "U" 1) "U" 2

/-- C8: emitting to a user delivers the event to every handle currently
in the user's room exactly once each (one delivery per member, counted
once under the room's no-duplicates invariant, which `joinRoom`
maintains), and when the user has no registered handles the emission is
a silent no-op producing no deliveries. -/
theorem emitToUser_delivers_once (st : FanoutState) (u ev : String) (pl : JsVal)
    (hnd : (roomMembers st ("user-" ++ u)).Nodup) :
    (∀ sid ∈ roomMembers st ("user-" ++ u),
        (emitToUser st u ev pl).count ⟨sid, ev, pl⟩ = 1)
    ∧ (emitToUser st u ev pl).length = (roomMembers st ("user-" ++ u)).length
    ∧ (roomMembers st ("user-" ++ u) = [] → emitToUser st u ev pl = []) := by
  refine ⟨?_, by simp [emitToUser], ?_⟩
  · intro sid hmem
    have hinj : Function.Injective (fun sid => (⟨sid, ev, pl⟩ : Delivery)) := by
      intro a b hab
      simpa using congrArg Delivery.sid hab
    calc (emitToUser st u ev pl).count ⟨sid, ev, pl⟩
        = (roomMembers st ("user-" ++ u)).count sid :=
          List.count_map_of_injective _ _ hinj sid
      _ = 1 := List.count_eq_one_of_mem hnd hmem
  · intro hempty
    simp [emitToUser, hempty]

/-- C8 witness: two handles registered for `U`; each receives the
notification exactly once; an unknown user yields no deliveries. -/
theorem emitToUser_delivers_once_witness :
    (roomMembers stTwoConn ("user-" ++ "U")).Nodup
    ∧ (emitToUser stTwoConn "U" "new-notification" (JsVal.str "p")).count
        ⟨1, "new-notification", JsVal.str "p"⟩ = 1
    ∧ (emitToUser stTwoConn "U" "new-notification" (JsVal.str "p")).count
        ⟨2, "new-notification", JsVal.str "p"⟩ = 1
    ∧ (emitToUser stTwoConn "U" "new-notification" (JsVal.str "p")).length = 2
    ∧ emitToUser (⟨[], []⟩ : FanoutState) "nobody" "x" JsVal.null = [] :=
  ⟨by decide,
   (emitToUser_delivers_once stTwoConn "U" "new-notification" (JsVal.str "p")
      (by decide)).1 1 (by decide),
   (emitToUser_delivers_once stTwoConn "U" "new-notification" (JsVal.str "p")
      (by decide)).1 2 (by decide),
   by decide,
   (emitToUser_delivers_once (⟨[], []⟩ : FanoutState) "nobody" "x" JsVal.null
      (by decide)).2.2 (by decide)⟩

/-- C9 counterexample: `userSockets` does not hold a set of handles.
After user `U` registers connection 1 and then connection 2, the
registry entry is exactly `[("U", 2)]` — the first handle is gone, not
kept alongside the second. Disconnecting socket 2 while socket 1 is
still open (it remains a member of the user's room) removes the entry
entirely instead of leaving it with the remaining handle. -/
theorem registry_overwrites_on_second_connection :
    stTwoConn.userSockets = [("U", 2)]
    ∧ (onDisconnect stTwoConn 2).userSockets = []
    ∧ (onDisconnect stTwoConn 2).rooms = [("user-U", [1])] := by
  decide

/-- C9 (amended): the `userSockets` registry maps each user identity to
the **single** socket id of that user's most recent `authenticate`: a
second registration for the same user overwrites the first; on
disconnect the first entry whose stored id equals the closing socket is
removed (and only that one), so an entry whose stored id belongs to an
already-overwritten connection is left unchanged by that connection's
disconnect, and the entry disappears as soon as the most recently
registered connection closes, even while older connections stay open. -/
theorem registry_single_handle (st : FanoutState) (u : String) (s1 s2 : Nat)
    (hu : u ≠ "") :
    assocGet (onAuthenticate (onAuthenticate st u s1) u s2).userSockets u = some s2
    ∧ (∀ st' : FanoutState, ∀ sid : Nat,
        (onDisconnect st' sid).userSockets = removeFirstByValue st'.userSockets sid)
    ∧ (∀ (l : List (String × Nat)) (sid : Nat),
        (∀ p ∈ l, p.2 ≠ sid) → removeFirstByValue l sid = l)
    ∧ (∀ (l₁ l₂ : List (String × Nat)) (v : String) (sid : Nat),
        (∀ p ∈ l₁, p.2 ≠ sid) →
        removeFirstByValue (l₁ ++ (v, sid) :: l₂) sid = l₁ ++ l₂) := by
  refine ⟨?_, fun _ _ => rfl, ?_, ?_⟩
  · simp only [onAuthenticate, if_pos hu]
    exact assocGet_assocSet_self _ _ _
  · intro l sid h
    induction l with
    | nil => rfl
    | cons p rest ih =>
      obtain ⟨u', s'⟩ := p
      have hs : s' ≠ sid := h (u', s') (List.mem_cons_self _ _)
      simp only [removeFirstByValue, if_neg hs]
      rw [ih (fun q hq => h q (List.mem_cons_of_mem _ hq))]
  · intro l₁ l₂ v sid h
    induction l₁ with
    | nil => simp [removeFirstByValue]
    | cons p rest ih =>
      obtain ⟨u', s'⟩ := p
      have hs : s' ≠ sid := h (u', s') (List.mem_cons_self _ _)
      simp only [List.cons_append, removeFirstByValue, if_neg hs]
      exact congrArg (List.cons (u', s')) (ih (fun q hq => h q (List.mem_cons_of_mem _ hq)))

/-- C9 witness: the amended theorem at `u = "U"`, sockets 1 then 2 on a
fresh server, and the concrete disconnect cases. -/
theorem registry_single_handle_witness :
    ("U" : String) ≠ ""
    ∧ assocGet stTwoConn.userSockets "U" = some 2
    ∧ removeFirstByValue [("U", 2)] 1 = [("U", 2)]
    ∧ removeFirstByValue [("V", 1), ("U", 2)] 2 = [("V", 1)] :=
  ⟨by decide,
   (registry_single_handle ⟨[], []⟩ "U" 1 2 (by decide)).1,
   (registry_single_handle ⟨[], []⟩ "U" 1 2 (by decide)).2.2.1 [("U", 2)] 1 (by decide),
   (registry_single_handle ⟨[], []⟩ "U" 1 2 (by decide)).2.2.2 [("V", 1)] [] "U" 2
     (by decide)⟩

/-! ## C2 — capacity eviction in `set` -/

theorem foldl_assocDelete_eq_filter (ks : List String) (c : Cache) (hnd : NodupKeys c) :
    ks.foldl (fun acc k => assocDelete acc k) c
      = c.filter (fun p => !decide (p.1 ∈ ks)) := by
  induction ks generalizing c with
  | nil => simp
  | cons k kt ih =>
    rw [List.foldl_cons]
    have hnd' : NodupKeys (assocDelete c k) := by
      rw [assocDelete_eq_filter c k hnd]
      exact nodupKeys_filter _ _ hnd
    rw [ih _ hnd', assocDelete_eq_filter c k hnd, List.filter_filter]
    apply List.filter_congr
    intro a _
    by_cases hk : a.1 = k <;> by_cases hm : a.1 ∈ kt <;> simp [hk, hm]

/-- The shape shared by the eviction pass: removing from `corig` the
entries whose keys are those of the first `n` elements of a sorted
permutation `sorted` of `corig` leaves `corig.length - n` entries, a
subset of `corig`, all of them no older than any removed entry. -/
theorem filter_not_mem_take_spec (sorted corig : Cache) (n : Nat)
    (hperm : List.Perm sorted corig) (hnd : NodupKeys sorted)
    (hsP : sorted.Pairwise (fun a b => a.2.createdAt ≤ b.2.createdAt)) :
    (corig.filter (fun p => !decide (p.1 ∈ (sorted.take n).map Prod.fst))).length
        = corig.length - n
    ∧ (∀ q ∈ corig.filter (fun p => !decide (p.1 ∈ (sorted.take n).map Prod.fst)),
        q ∈ corig)
    ∧ (∀ p ∈ corig,
        p ∉ corig.filter (fun p => !decide (p.1 ∈ (sorted.take n).map Prod.fst)) →
        ∀ q ∈ corig.filter (fun p => !decide (p.1 ∈ (sorted.take n).map Prod.fst)),
        p.2.createdAt ≤ q.2.createdAt) := by
  have htd : sorted.take n ++ sorted.drop n = sorted := List.take_append_drop n sorted
  have hkeysplit : sorted.map Prod.fst
      = (sorted.take n).map Prod.fst ++ (sorted.drop n).map Prod.fst := by
    rw [← List.map_append, htd]
  have hnd2 : ((sorted.take n).map Prod.fst ++ (sorted.drop n).map Prod.fst).Nodup := by
    rw [← hkeysplit]; exact hnd
  have hdisj : ((sorted.take n).map Prod.fst).Disjoint ((sorted.drop n).map Prod.fst) :=
    (List.nodup_append.mp hnd2).2.2
  have hdrop_true : ∀ p ∈ sorted.drop n,
      (!decide (p.1 ∈ (sorted.take n).map Prod.fst)) = true := by
    intro p hp
    have hmem : p.1 ∈ (sorted.drop n).map Prod.fst := List.mem_map_of_mem Prod.fst hp
    simp only [Bool.not_eq_true', decide_eq_false_iff_not]
    exact fun hin => hdisj hin hmem
  have hfilter_take : (sorted.take n).filter
      (fun p => !decide (p.1 ∈ (sorted.take n).map Prod.fst)) = [] := by
    rw [List.filter_eq_nil_iff]
    intro p hp
    have hmem : p.1 ∈ (sorted.take n).map Prod.fst := List.mem_map_of_mem Prod.fst hp
    intro hcontra
    rw [Bool.not_eq_true', decide_eq_false_iff_not] at hcontra
    exact hcontra hmem
  have hfilter_drop : (sorted.drop n).filter
      (fun p => !decide (p.1 ∈ (sorted.take n).map Prod.fst)) = sorted.drop n :=
    List.filter_eq_self.mpr hdrop_true
  have hsortedfilter : sorted.filter
      (fun p => !decide (p.1 ∈ (sorted.take n).map Prod.fst)) = sorted.drop n := by
    have h0 : sorted.filter (fun p => !decide (p.1 ∈ (sorted.take n).map Prod.fst))
        = (sorted.take n ++ sorted.drop n).filter
            (fun p => !decide (p.1 ∈ (sorted.take n).map Prod.fst)) :=
      congrArg (List.filter (fun p => !decide (p.1 ∈ (sorted.take n).map Prod.fst)))
        htd.symm
    rw [h0, List.filter_append, hfilter_take, hfilter_drop, List.nil_append]
  have hsurv : List.Perm
      (corig.filter (fun p => !decide (p.1 ∈ (sorted.take n).map Prod.fst)))
      (sorted.drop n) := by
    have h := (hperm.filter (fun p => !decide (p.1 ∈ (sorted.take n).map Prod.fst))).symm
    rw [hsortedfilter] at h
    exact h
  refine ⟨?_, ?_, ?_⟩
  · rw [hsurv.length_eq, List.length_drop, hperm.length_eq]
  · intro q hq
    exact (List.mem_filter.mp hq).1
  · intro p hp hnot q hq
    have hp_s : p ∈ sorted := hperm.mem_iff.mpr hp
    have hp_td : p ∈ sorted.take n ++ sorted.drop n := by rw [htd]; exact hp_s
    rcases List.mem_append.mp hp_td with htake | hdrop
    · have hq_drop : q ∈ sorted.drop n := hsurv.mem_iff.mp hq
      have hPW : (sorted.take n ++ sorted.drop n).Pairwise
          (fun a b => a.2.createdAt ≤ b.2.createdAt) := by
        rw [htd]; exact hsP
      exact (List.pairwise_append.mp hPW).2.2 p htake q hq_drop
    · exact absurd (List.mem_filter.mpr ⟨hp, hdrop_true p hdrop⟩) hnot

theorem evictIfFull_spec (c : Cache) (hnd : NodupKeys c)
    (hfull : MAX_CACHE_SIZE ≤ c.length) :
    (evictIfFull c).length = c.length - MAX_CACHE_SIZE / 10
    ∧ (∀ q ∈ evictIfFull c, q ∈ c)
    ∧ (∀ p ∈ c, p ∉ evictIfFull c → ∀ q ∈ evictIfFull c,
        p.2.createdAt ≤ q.2.createdAt) := by
  have hperm : List.Perm
      (c.mergeSort (fun a b => a.2.createdAt ≤ b.2.createdAt)) c :=
    List.mergeSort_perm c _
  have hnds : NodupKeys (c.mergeSort (fun a b => a.2.createdAt ≤ b.2.createdAt)) :=
    ((hperm.map Prod.fst).nodup_iff).mpr hnd
  have htrans : ∀ (a b d : String × CacheEntry),
      (fun (a b : String × CacheEntry) => (a.2.createdAt ≤ b.2.createdAt : Bool)) a b →
      (fun (a b : String × CacheEntry) => (a.2.createdAt ≤ b.2.createdAt : Bool)) b d →
      (fun (a b : String × CacheEntry) => (a.2.createdAt ≤ b.2.createdAt : Bool)) a d := by
    intro a b d h1 h2
    simp only [decide_eq_true_eq] at *
    omega
  have htotal : ∀ (a b : String × CacheEntry),
      ((fun (a b : String × CacheEntry) => (a.2.createdAt ≤ b.2.createdAt : Bool)) a b
        || (fun (a b : String × CacheEntry) => (a.2.createdAt ≤ b.2.createdAt : Bool)) b a) := by
    intro a b
    simp only [Bool.or_eq_true, decide_eq_true_eq]
    exact Nat.le_total _ _
  have hsP : (c.mergeSort (fun a b => a.2.createdAt ≤ b.2.createdAt)).Pairwise
      (fun a b => a.2.createdAt ≤ b.2.createdAt) := by
    have h := List.sorted_mergeSort htrans htotal c
    exact h.imp (fun hab => by simpa using hab)
  have hevict : evictIfFull c
      = c.filter (fun p => !decide (p.1 ∈
          ((c.mergeSort (fun a b => a.2.createdAt ≤ b.2.createdAt)).take
            (MAX_CACHE_SIZE / 10)).map Prod.fst)) := by
    rw [evictIfFull, if_pos hfull, ← List.foldl_map]
    exact foldl_assocDelete_eq_filter _ c hnd
  rw [hevict]
  exact filter_not_mem_take_spec _ c (MAX_CACHE_SIZE / 10) hperm hnds hsP

/-- C2: under the `Map` key-uniqueness invariant, whenever the cache
size has reached the capacity (`MAX_CACHE_SIZE = 1000`), `set` first
evicts exactly `floor(capacity * 0.1) = 100` entries — each evicted
entry's `createdAt` is no greater than that of every surviving entry,
ranked by creation time alone, reads never reorder anything — and then
inserts the new entry; and whenever the size is at most the capacity
before a `set`, it is still at most the capacity afterwards, so no
`set` ever pushes the cache beyond its capacity. -/
theorem set_capacity_eviction (c : Cache) (now : Nat) (key : String) (v : JsVal)
    (ttl : Nat) (hnd : NodupKeys c) :
    (MAX_CACHE_SIZE ≤ c.length →
       (evictIfFull c).length = c.length - MAX_CACHE_SIZE / 10
       ∧ (∀ q ∈ evictIfFull c, q ∈ c)
       ∧ (∀ p ∈ c, p ∉ evictIfFull c → ∀ q ∈ evictIfFull c,
            p.2.createdAt ≤ q.2.createdAt)
       ∧ set c now key v ttl = assocSet (evictIfFull c) key ⟨v, now + ttl, now⟩)
    ∧ (c.length ≤ MAX_CACHE_SIZE → (set c now key v ttl).length ≤ MAX_CACHE_SIZE) := by
  constructor
  · intro hfull
    obtain ⟨h1, h2, h3⟩ := evictIfFull_spec c hnd hfull
    exact ⟨h1, h2, h3, rfl⟩
  · intro hle
    have hset : (set c now key v ttl).length
        ≤ (evictIfFull c).length + 1 := assocSet_length_le _ _ _
    by_cases hfull : MAX_CACHE_SIZE ≤ c.length
    · have h1 := (evictIfFull_spec c hnd hfull).1
      have hmax : MAX_CACHE_SIZE = 1000 := rfl
      have hdiv : MAX_CACHE_SIZE / 10 = 100 := rfl
      omega
    · have hid : evictIfFull c = c := by
        rw [evictIfFull, if_neg hfull]
      rw [hid] at hset
      omega

/-- C2 witness: the theorem applied at the empty cache (which trivially
satisfies the key-uniqueness invariant): a `set` keeps the size within
the capacity. -/
theorem set_capacity_eviction_witness :
    NodupKeys ([] : Cache)
    ∧ (set ([] : Cache) 0 "post:1" (JsVal.str "x") 5).length ≤ MAX_CACHE_SIZE :=
  ⟨by decide,
   (set_capacity_eviction [] 0 "post:1" (JsVal.str "x") 5 (by decide)).2 (by decide)⟩

end Momento
